import Mathlib

/-!
Verification of the RFC7807 problem-response subsystem of the
`fast_api_project_template` service.

The development shallowly embeds, from the source:

* `src/model/problem/exception.py` — `ProblemException` (`__init__`, `to_dict`,
  `to_bytes`);
* `src/model/problem/response.py` — `ProblemResponse.render` and the
  classifier constructors `as_dict`, `as_http_exception`,
  `as_request_validation_error`, `as_uncaught_exception`,
  `from_domain_exception`;
* `src/config/logging_configurator.py` — `BaseLogRecord.to_dict` as used by
  `ErrorLogRecord`;
* `src/middleware/error_middleware.py` — `UnhandledExceptionsMiddleware.__call__`;
* `src/config/problem_configurator.py` — `exception_handler` / `exec_hooks`.

Python strings are Lean `String`s; `bytes` produced by UTF-8 encoding are kept
as the underlying character list (UTF-8 encoding of unicode text is injective,
so nothing is lost).  An optional string field whose only observations are
truthiness and the raw value is collapsed to a plain `String` with `""`
standing for both Python `None` and the empty string — `ProblemException`
observes `detail`, `instance` and friends only through `if self.x:` truthiness,
which identifies the two.  JSON-serializable Python values are the `Jval`
inductive.  A Python function that can raise is embedded in `Except PyErr`.
-/

/-- A JSON-serializable Python value, as passed around by the problem model
(strings, ints, bools, `None`, lists, and string-keyed dicts). -/
inductive Jval where
  | str (s : String)
  | int (n : Int)
  | bool (b : Bool)
  | null
  | arr (xs : List Jval)
  | obj (kvs : List (String × Jval))

/-- The Python exceptions the embedded code can itself raise:
`TypeError` (unexpected keyword argument), `ValueError` (`http.HTTPStatus`
lookup failure), or an exception raised by a registered hook. -/
inductive PyErr where
  | typeError
  | valueError
  | raisedHook (label : String)
deriving DecidableEq, Repr

/-- `http.HTTPStatus(code).phrase` of CPython: the standard reason-phrase
table.  `none` models the `ValueError` raised for a code that is not a member
of the enum. -/
def httpStatusPhrase : Int → Option String
  | 100 => some "Continue"
  | 101 => some "Switching Protocols"
  | 102 => some "Processing"
  | 103 => some "Early Hints"
  | 200 => some "OK"
  | 201 => some "Created"
  | 202 => some "Accepted"
  | 203 => some "Non-Authoritative Information"
  | 204 => some "No Content"
  | 205 => some "Reset Content"
  | 206 => some "Partial Content"
  | 207 => some "Multi-Status"
  | 208 => some "Already Reported"
  | 226 => some "IM Used"
  | 300 => some "Multiple Choices"
  | 301 => some "Moved Permanently"
  | 302 => some "Found"
  | 303 => some "See Other"
  | 304 => some "Not Modified"
  | 305 => some "Use Proxy"
  | 307 => some "Temporary Redirect"
  | 308 => some "Permanent Redirect"
  | 400 => some "Bad Request"
  | 401 => some "Unauthorized"
  | 402 => some "Payment Required"
  | 403 => some "Forbidden"
  | 404 => some "Not Found"
  | 405 => some "Method Not Allowed"
  | 406 => some "Not Acceptable"
  | 407 => some "Proxy Authentication Required"
  | 408 => some "Request Timeout"
  | 409 => some "Conflict"
  | 410 => some "Gone"
  | 411 => some "Length Required"
  | 412 => some "Precondition Failed"
  | 413 => some "Request Entity Too Large"
  | 414 => some "Request-URI Too Long"
  | 415 => some "Unsupported Media Type"
  | 416 => some "Requested Range Not Satisfiable"
  | 417 => some "Expectation Failed"
  | 418 => some "I\x27m a Teapot"
  | 421 => some "Misdirected Request"
  | 422 => some "Unprocessable Entity"
  | 423 => some "Locked"
  | 424 => some "Failed Dependency"
  | 425 => some "Too Early"
  | 426 => some "Upgrade Required"
  | 428 => some "Precondition Required"
  | 429 => some "Too Many Requests"
  | 431 => some "Request Header Fields Too Large"
  | 451 => some "Unavailable For Legal Reasons"
  | 500 => some "Internal Server Error"
  | 501 => some "Not Implemented"
  | 502 => some "Bad Gateway"
  | 503 => some "Service Unavailable"
  | 504 => some "Gateway Timeout"
  | 505 => some "HTTP Version Not Supported"
  | 506 => some "Variant Also Negotiates"
  | 507 => some "Insufficient Storage"
  | 508 => some "Loop Detected"
  | 510 => some "Not Extended"
  | 511 => some "Network Authentication Required"
  | _ => none

/-- The state of a `ProblemException` instance after `__init__` (or after any
later field assignment): `type`, `title`, `status`, `detail`, `instance`
(field `inst`, since `instance` is a Lean keyword), `errors`. -/
structure ProblemException where
  type : String
  title : String
  status : Int
  detail : String
  inst : String
  errors : List Jval

/-- `ProblemException.__init__`: applies the `or`-defaults
(`_type or "exception:problem"`, `status or 500`,
`title or http.HTTPStatus(self.status).phrase`) and stores the rest verbatim.
`.error .valueError` models the `ValueError` that `http.HTTPStatus(status)`
raises when `title` is falsy and `status` is not in the standard table. -/
def ProblemException.init (_type title : String) (status : Int)
    (detail inst : String) (errors : List Jval) : Except PyErr ProblemException :=
  let t := if _type = "" then "exception:problem" else _type
  let s := if status = 0 then 500 else status
  if title = "" then
    match httpStatusPhrase s with
    | some phrase => .ok ⟨t, phrase, s, detail, inst, errors⟩
    | none => .error .valueError
  else .ok ⟨t, title, s, detail, inst, errors⟩

/-- `ProblemException.to_dict`: the JSON mapping, with every falsy field
omitted (`if self.type: ...` etc.), in the source's insertion order. -/
def ProblemException.to_dict (p : ProblemException) : List (String × Jval) :=
  (if p.type = "" then [] else [("type", Jval.str p.type)]) ++
  (if p.title = "" then [] else [("title", Jval.str p.title)]) ++
  (if p.status = 0 then [] else [("status", Jval.int p.status)]) ++
  (if p.detail = "" then [] else [("detail", Jval.str p.detail)]) ++
  (if p.inst = "" then [] else [("instance", Jval.str p.inst)]) ++
  (if p.errors.isEmpty then [] else [("errors", Jval.arr p.errors)])

/-- The keyword parameters accepted by `ProblemException.__init__`. -/
def problemKwargs : List String :=
  ["_type", "title", "status", "detail", "instance", "errors"]

/-- Read a string-valued keyword from a Python `**data` mapping (absent, or a
non-string, reads as the falsy default). -/
def kwStr (data : List (String × Jval)) (k : String) : String :=
  match data.lookup k with
  | some (Jval.str s) => s
  | _ => ""

/-- Read the int-valued `status` keyword (absent reads as the falsy default). -/
def kwInt (data : List (String × Jval)) (k : String) : Int :=
  match data.lookup k with
  | some (Jval.int n) => n
  | _ => 0

/-- Read the list-valued `errors` keyword (absent reads as the falsy default). -/
def kwArr (data : List (String × Jval)) (k : String) : List Jval :=
  match data.lookup k with
  | some (Jval.arr xs) => xs
  | _ => []

/-- `ProblemResponse.as_dict`: `ProblemException(**data)`, then fill `instance`
with the request path when it is falsy.  A key of `data` that is not a
parameter of `__init__` makes the call `ProblemException(**data)` raise
`TypeError: unexpected keyword argument` before the constructor body runs. -/
def as_dict (data : List (String × Jval)) (path : String) :
    Except PyErr ProblemException :=
  if data.all (fun kv => problemKwargs.contains kv.1) then
    match ProblemException.init (kwStr data "_type") (kwStr data "title")
        (kwInt data "status") (kwStr data "detail") (kwStr data "instance")
        (kwArr data "errors") with
    | .ok p => .ok (if p.inst = "" then { p with inst := path } else p)
    | .error e => .error e
  else .error .typeError

/-- `ProblemResponse.as_http_exception` (the `errors or []` default applied). -/
def as_http_exception (status_code : Int) (detail : String) (path : String)
    (errors : List Jval) : Except PyErr ProblemException :=
  ProblemException.init "exception:http" "" status_code detail path errors

/-- `ProblemResponse.as_request_validation_error`. -/
def as_request_validation_error (errs : List Jval) (path : String) :
    Except PyErr ProblemException :=
  ProblemException.init "exception:validation" "Validation Error" 422
    "One or more user-provided parameters are invalid, please see errors for details."
    path errs

/-- `BaseLogRecord.to_dict` specialized to `ErrorLogRecord`: `asdict` in
dataclass field order, then every entry whose value is falsy
(`v not in (None, {}, [], "", 0, 0.0)`) dropped. -/
def errorLogRecordDict (exception_type exception_message exception_stack_trace :
    String) : List (String × Jval) :=
  (if exception_type = "" then [] else
    [("exception_type", Jval.str exception_type)]) ++
  (if exception_message = "" then [] else
    [("exception_message", Jval.str exception_message)]) ++
  (if exception_stack_trace = "" then [] else
    [("exception_stack_trace", Jval.str exception_stack_trace)])

/-- `ProblemResponse.as_uncaught_exception`.  The caught exception is observed
through `exc.__class__.__name__` (`className`), `str(exc)` (`message`) and
`"".join(traceback.format_exception(...))` (`stacktrace`), which the
embedding carries as the fault's data. -/
def as_uncaught_exception (className message stacktrace path : String) :
    Except PyErr ProblemException :=
  ProblemException.init "exception:uncaught" "" 500
    "Uncaught exception occurred while processing the request."
    path [Jval.obj (errorLogRecordDict className message stacktrace)]

/-- The runtime shape of the `content` handed to `ProblemResponse.render`,
one constructor per `isinstance` branch of the source (in dispatch order):
a `ProblemException`, a `dict`, a starlette `HTTPException` (status code and
detail), a FastAPI `RequestValidationError` (its `.errors()` list), any other
`Exception` (observed as class name, `str(exc)`, formatted traceback), or a
non-exception value (observed as `str(content)`). -/
inductive Content where
  | problem (p : ProblemException)
  | dict (data : List (String × Jval))
  | http (status_code : Int) (detail : String)
  | validation (errs : List Jval)
  | exc (className message stacktrace : String)
  | other (s : String)

/-- `ProblemResponse.render`: the classifier dispatch.  The result is the
`ProblemException` that the method assigns to `self.problem` (and whose
`to_bytes` it returns); an `.error` is an exception escaping `render`. -/
def render (content : Content) (path : String) : Except PyErr ProblemException :=
  match content with
  | .problem p => .ok p
  | .dict data => as_dict data path
  | .http status_code detail => as_http_exception status_code detail path []
  | .validation errs => as_request_validation_error errs path
  | .exc className message stacktrace =>
      as_uncaught_exception className message stacktrace path
  | .other s =>
      ProblemException.init "" "" 500
        "Got unexpected content when trying to generate error response"
        path [Jval.obj [("content", Jval.str s)]]

/-- The domain exceptions of `repository.domain.exceptions` as matched by
`from_domain_exception`, each carrying its `str(exc)` message; `otherError`
is any other exception class. -/
inductive DomainExc where
  | validationFailureError (msg : String)
  | notFoundError (msg : String)
  | conflictValueError (msg : String)
  | otherError (name msg : String)

/-- `str(exc)` of a domain exception. -/
def DomainExc.message : DomainExc → String
  | .validationFailureError msg => msg
  | .notFoundError msg => msg
  | .conflictValueError msg => msg
  | .otherError _ msg => msg

/-- `ProblemResponse.from_domain_exception`: the `match` on the exception
class picks the status, then `ProblemException(status=..., detail=str(exc),
instance=instance)` (whose `to_response()` the source returns). -/
def from_domain_exception (exc : DomainExc) (inst : String) :
    Except PyErr ProblemException :=
  let http_status : Int :=
    match exc with
    | .validationFailureError _ => 400
    | .notFoundError _ => 404
    | .conflictValueError _ => 409
    | .otherError _ _ => 500
  ProblemException.init "" "" http_status exc.message inst []

/-- An ASGI message, observed through its `type` key (plus an opaque payload). -/
structure Message where
  mtype : String
  payload : String
deriving DecidableEq, Repr

/-- One run of the wrapped ASGI app on a request: the messages it passes to
`send` before finishing, and the exception it then raises, if any. -/
structure AppRun where
  toSend : List Message
  fault : Option String
deriving DecidableEq, Repr

/-- The `response_started` flag after the `_send` wrapper has forwarded the
given messages, starting from `flag`. -/
def sendLoop (flag : Bool) : List Message → Bool
  | [] => flag
  | m :: ms => sendLoop (flag || (m.mtype == "http.response.start")) ms

/-- The two messages `await response(scope, receive, send)` emits for a
rendered problem: one `http.response.start` and one `http.response.body`. -/
def problemResponseSend (p : ProblemException) : List Message :=
  [⟨"http.response.start", toString p.status⟩,
   ⟨"http.response.body", toString p.status⟩]

/-- Count of `http.response.start` messages in a transcript. -/
def countStarts (ms : List Message) : Nat :=
  (ms.filter (fun m => m.mtype == "http.response.start")).length

/-- `UnhandledExceptionsMiddleware.__call__` on one request: returns the full
transcript of messages passed to the transport `send`, and the exception the
call re-raises, if any.  `handler` gives the messages the exception handler's
response sends for a caught exception. -/
def middlewareCall (scopeType : String) (app : AppRun)
    (handler : String → List Message) : List Message × Option String :=
  if scopeType != "http" then (app.toSend, app.fault)
  else
    match app.fault with
    | none => (app.toSend, none)
    | some exc =>
        if sendLoop false app.toSend then (app.toSend, some exc)
        else (app.toSend ++ handler exc, some exc)

/-- A registered hook, observed through an identifying label and whether the
call raises. -/
structure Hook where
  label : String
  fails : Bool
deriving DecidableEq, Repr

/-- `exec_hooks`: run hooks in registration order, appending each invoked
hook's label to the log.  There is no `try`/`except` around the calls, so the
first raising hook aborts the loop and its exception propagates
(`some label`). -/
def exec_hooks : List Hook → List String → List String × Option String
  | [], log => (log, none)
  | h :: hs, log =>
      let log1 := log ++ [h.label]
      if h.fails then (log1, some h.label) else exec_hooks hs log1

/-- `exception_handler` from `problem_exception_handler_provider`: run the
pre-hooks, build the `ProblemResponse` (which runs `render` inside
`Response.__init__`), run the post-hooks, return the response.  The result
pairs the hook invocation log with either the rendered problem or the
exception escaping the handler. -/
def exception_handler (pre post : List Hook) (content : Content)
    (path : String) : List String × Except PyErr ProblemException :=
  match exec_hooks pre [] with
  | (log, some l) => (log, .error (.raisedHook l))
  | (log, none) =>
      match render content path with
      | .error e => (log, .error e)
      | .ok p =>
          match exec_hooks post log with
          | (log2, some l) => (log2, .error (.raisedHook l))
          | (log2, none) => (log2, .ok p)

/-! ## The byte encoding: `json.dumps(..., ensure_ascii=False, separators=(",", ":"))`

`to_bytes` serializes `to_dict()` with compact separators and no ASCII
escaping.  The encoder below produces the same character stream: decimal
integers, strings escaped exactly as CPython's `json.encoder` escapes them
(`\"`, `\\`, `\b`, `\t`, `\n`, `\f`, `\r`, and `\u00xx` for the remaining
control characters), and `[...]`/braced objects with `","` and `":"`. -/

/-- The `\x7b` character (object opener). -/
def lbrace : Char := Char.ofNat 123

/-- The `\x7d` character (object closer). -/
def rbrace : Char := Char.ofNat 125

/-- The decimal digit character for `d < 10`. -/
def digitChar (d : Nat) : Char := Char.ofNat (48 + d)

/-- Decimal digits of a natural number, most significant first. -/
def natChars (n : Nat) : List Char :=
  if n < 10 then [digitChar n] else natChars (n / 10) ++ [digitChar (n % 10)]
termination_by n
decreasing_by exact Nat.div_lt_self (by omega) (by omega)

/-- Decimal rendering of an integer, as `repr(int)` / `json.dumps` print it. -/
def intChars (n : Int) : List Char :=
  if n < 0 then '-' :: natChars n.natAbs else natChars n.natAbs

/-- Lowercase hexadecimal digit character for `d < 16`. -/
def hexChar (d : Nat) : Char :=
  if d < 10 then Char.ofNat (48 + d) else Char.ofNat (87 + d)

/-- One string character as `json.encoder` emits it with `ensure_ascii=False`:
the two-character escapes of `ESCAPE_DCT`, `\u00xx` for other control
characters, everything else verbatim. -/
def escapeChar (c : Char) : List Char :=
  if c = '"' then ['\\', '"']
  else if c = '\\' then ['\\', '\\']
  else if c = '\n' then ['\\', 'n']
  else if c = '\t' then ['\\', 't']
  else if c = '\r' then ['\\', 'r']
  else if c.toNat = 8 then ['\\', 'b']
  else if c.toNat = 12 then ['\\', 'f']
  else if c.toNat < 32 then
    ['\\', 'u', '0', '0', hexChar (c.toNat / 16), hexChar (c.toNat % 16)]
  else [c]

/-- A JSON string literal: quote, escaped characters, quote. -/
def encString (cs : List Char) : List Char :=
  '"' :: (cs.flatMap escapeChar ++ ['"'])

mutual

/-- Serialize one value (the character stream of `json.dumps`). -/
def encVal : Jval → List Char
  | .str s => encString s.data
  | .int n => intChars n
  | .bool true => ['t', 'r', 'u', 'e']
  | .bool false => ['f', 'a', 'l', 's', 'e']
  | .null => ['n', 'u', 'l', 'l']
  | .arr [] => ['[', ']']
  | .arr (x :: xs) => '[' :: (encItems x xs ++ [']'])
  | .obj [] => [lbrace, rbrace]
  | .obj (kv :: kvs) => lbrace :: (encPairs kv kvs ++ [rbrace])
termination_by j => sizeOf j
decreasing_by all_goals (simp_wf; try omega)

/-- Array items joined by the `","` item separator. -/
def encItems : Jval → List Jval → List Char
  | x, [] => encVal x
  | x, y :: ys => encVal x ++ ',' :: encItems y ys
termination_by x xs => sizeOf x + sizeOf xs
decreasing_by all_goals (simp_wf; try omega)

/-- Object members `key:value` joined by the `","` item separator. -/
def encPairs : String × Jval → List (String × Jval) → List Char
  | (k, v), [] => encString k.data ++ ':' :: encVal v
  | (k, v), kv :: kvs => encString k.data ++ ':' :: encVal v ++ ',' :: encPairs kv kvs
termination_by kv kvs => sizeOf kv + sizeOf kvs
decreasing_by all_goals (simp_wf; try omega)

end

/-- `ProblemException.to_bytes`: the UTF-8 payload of `json.dumps(self.to_dict(),
ensure_ascii=False, allow_nan=False, indent=None, separators=(",", ":"))`,
kept as its character stream. -/
def ProblemException.to_bytes (p : ProblemException) : List Char :=
  encVal (Jval.obj p.to_dict)

/-! ## Decoding: a model of `json.loads` on the payloads `to_bytes` produces

`json.loads` is total on well-formed documents; the model below parses the
grammar fragment `json.dumps` emits (no insignificant whitespace, integer
numbers).  `decode` drives the fueled value parser with more fuel than the
input length, which the round-trip proof shows is always enough. -/

/-- Numeric value of a hexadecimal digit character (either case). -/
def hexNat (c : Char) : Option Nat :=
  if 48 ≤ c.toNat ∧ c.toNat ≤ 57 then some (c.toNat - 48)
  else if 97 ≤ c.toNat ∧ c.toNat ≤ 102 then some (c.toNat - 87)
  else if 65 ≤ c.toNat ∧ c.toNat ≤ 70 then some (c.toNat - 55)
  else none

/-- The character a two-character JSON escape stands for. -/
def unescapeChar (e : Char) : Option Char :=
  if e = '"' then some '"'
  else if e = '\\' then some '\\'
  else if e = '/' then some '/'
  else if e = 'n' then some '\n'
  else if e = 't' then some '\t'
  else if e = 'r' then some '\r'
  else if e = 'b' then some (Char.ofNat 8)
  else if e = 'f' then some (Char.ofNat 12)
  else none

/-- Parse a string literal's body after the opening quote, up to and including
the closing quote. -/
def parseStringBody : List Char → Option (List Char × List Char)
  | [] => none
  | '"' :: cs => some ([], cs)
  | '\\' :: 'u' :: h1 :: h2 :: h3 :: h4 :: cs2 =>
    (match hexNat h1, hexNat h2, hexNat h3, hexNat h4 with
     | some a, some b, some g, some d =>
         let m := ((a * 16 + b) * 16 + g) * 16 + d
         if m < 55296 then
           (parseStringBody cs2).map (fun q => (Char.ofNat m :: q.1, q.2))
         else none
     | _, _, _, _ => none)
  | '\\' :: e :: cs1 =>
    (match unescapeChar e with
     | some u => (parseStringBody cs1).map (fun q => (u :: q.1, q.2))
     | none => none)
  | ['\\'] => none
  | c :: cs => (parseStringBody cs).map (fun q => (c :: q.1, q.2))

/-- Decimal digit test. -/
def isDigitCh (c : Char) : Bool := 48 ≤ c.toNat && c.toNat ≤ 57

/-- Greedy decimal run: fold digits onto `acc`, stop at the first non-digit. -/
def grabDigits (acc : Nat) : List Char → Nat × List Char
  | [] => (acc, [])
  | c :: cs =>
    if isDigitCh c then grabDigits (acc * 10 + (c.toNat - 48)) cs
    else (acc, c :: cs)

mutual

/-- Parse one JSON value; `fuel` only drops on nested parses, and the
round-trip proof shows any fuel beyond the input length suffices. -/
def parseValue : Nat → List Char → Option (Jval × List Char)
  | 0, _ => none
  | _ + 1, [] => none
  | fuel + 1, c :: cs =>
    if c = '"' then
      (parseStringBody cs).map (fun q => (Jval.str (String.mk q.1), q.2))
    else if c = '[' then
      match cs with
      | [] => none
      | c1 :: cs1 =>
        if c1 = ']' then some (Jval.arr [], cs1)
        else (parseArrElems fuel (c1 :: cs1)).map (fun q => (Jval.arr q.1, q.2))
    else if c = lbrace then
      match cs with
      | [] => none
      | c1 :: cs1 =>
        if c1 = rbrace then some (Jval.obj [], cs1)
        else (parseObjItems fuel (c1 :: cs1)).map (fun q => (Jval.obj q.1, q.2))
    else if c = 't' then
      match cs with
      | 'r' :: 'u' :: 'e' :: r => some (Jval.bool true, r)
      | _ => none
    else if c = 'f' then
      match cs with
      | 'a' :: 'l' :: 's' :: 'e' :: r => some (Jval.bool false, r)
      | _ => none
    else if c = 'n' then
      match cs with
      | 'u' :: 'l' :: 'l' :: r => some (Jval.null, r)
      | _ => none
    else if c = '-' then
      match cs with
      | [] => none
      | d :: cs1 =>
        if isDigitCh d then
          let q := grabDigits (d.toNat - 48) cs1
          some (Jval.int (-(q.1 : Int)), q.2)
        else none
    else if isDigitCh c then
      let q := grabDigits (c.toNat - 48) cs
      some (Jval.int (q.1 : Int), q.2)
    else none

/-- Parse one-or-more comma-separated array items and the closing bracket. -/
def parseArrElems : Nat → List Char → Option (List Jval × List Char)
  | 0, _ => none
  | fuel + 1, cs =>
    match parseValue fuel cs with
    | none => none
    | some (v, r) =>
      match r with
      | ',' :: r1 => (parseArrElems fuel r1).map (fun q => (v :: q.1, q.2))
      | ']' :: r1 => some ([v], r1)
      | _ => none

/-- Parse one-or-more `"key":value` members and the closing brace. -/
def parseObjItems : Nat → List Char → Option (List (String × Jval) × List Char)
  | 0, _ => none
  | fuel + 1, cs =>
    match cs with
    | [] => none
    | q0 :: cs0 =>
      if q0 = '"' then
        match parseStringBody cs0 with
        | none => none
        | some (k, r1) =>
          match r1 with
          | ':' :: r2 =>
            match parseValue fuel r2 with
            | none => none
            | some (v, r3) =>
              match r3 with
              | ',' :: r4 =>
                  (parseObjItems fuel r4).map
                    (fun q => ((String.mk k, v) :: q.1, q.2))
              | d :: r4 =>
                  if d = rbrace then some ([(String.mk k, v)], r4) else none
              | [] => none
          | _ => none
      else none

end

/-- `json.loads` on a byte payload: parse one value and require the input to
be exhausted. -/
def decode (cs : List Char) : Option Jval :=
  match parseValue (cs.length + 1) cs with
  | some (j, []) => some j
  | _ => none

/-! ## Round-trip lemmas: strings -/

/-- `hexNat` inverts `hexChar` on hex digit values. -/
theorem hexNat_hexChar (d : Nat) (h : d < 16) : hexNat (hexChar d) = some d := by
  interval_cases d <;> decide

/-- Parsing one escaped character prepends exactly that character. -/
theorem parseStringBody_escape (c : Char) (rest : List Char) :
    parseStringBody (escapeChar c ++ rest)
      = (parseStringBody rest).map (fun q => (c :: q.1, q.2)) := by
  by_cases h1 : c = '"'
  · subst h1; rfl
  by_cases h2 : c = '\\'
  · subst h2; rfl
  by_cases h3 : c = '\n'
  · subst h3; rfl
  by_cases h4 : c = '\t'
  · subst h4; rfl
  by_cases h5 : c = '\r'
  · subst h5; rfl
  by_cases h6 : c.toNat = 8
  · have hc : c = Char.ofNat 8 := by rw [← h6, Char.ofNat_toNat]
    subst hc; rfl
  by_cases h7 : c.toNat = 12
  · have hc : c = Char.ofNat 12 := by rw [← h7, Char.ofNat_toNat]
    subst hc; rfl
  by_cases h8 : c.toNat < 32
  · have he : escapeChar c
        = ['\\', 'u', '0', '0', hexChar (c.toNat / 16), hexChar (c.toNat % 16)] := by
      simp [escapeChar, h1, h2, h3, h4, h5, h6, h7, h8]
    rw [he]
    have hhi : hexNat (hexChar (c.toNat / 16)) = some (c.toNat / 16) :=
      hexNat_hexChar _ (by omega)
    have hlo : hexNat (hexChar (c.toNat % 16)) = some (c.toNat % 16) :=
      hexNat_hexChar _ (by omega)
    have h00 : hexNat '0' = some 0 := by decide
    have harith : ((0 * 16 + 0) * 16 + c.toNat / 16) * 16 + c.toNat % 16 = c.toNat := by
      have := Nat.div_add_mod c.toNat 16
      omega
    simp only [List.cons_append, List.nil_append, parseStringBody, h00, hhi, hlo]
    simp only [harith, if_pos (by omega : c.toNat < 55296), Char.ofNat_toNat]
    rfl
  · have he : escapeChar c = [c] := by
      simp [escapeChar, h1, h2, h3, h4, h5, h6, h7, h8]
    rw [he]
    simp only [List.cons_append, List.nil_append]
    rw [parseStringBody.eq_def]
    simp [h1, h2]

/-- Parsing a fully escaped character list stops at the closing quote. -/
theorem parseStringBody_flatMap (l : List Char) (rest : List Char) :
    parseStringBody (l.flatMap escapeChar ++ '"' :: rest) = some (l, rest) := by
  induction l with
  | nil => simp [parseStringBody]
  | cons c cs ih =>
      rw [List.flatMap_cons, List.append_assoc, parseStringBody_escape, ih]
      rfl

/-! ## Round-trip lemmas: decimal integers -/

/-- The digit character of `d < 10` is a digit and carries `d`. -/
theorem digitChar_spec (d : Nat) (h : d < 10) :
    isDigitCh (digitChar d) = true ∧ (digitChar d).toNat = 48 + d := by
  interval_cases d <;> exact ⟨by decide, by decide⟩

/-- Every character of `natChars n` is a digit. -/
theorem natChars_digits (n : Nat) : ∀ c ∈ natChars n, isDigitCh c = true := by
  induction n using Nat.strong_induction_on with
  | _ n ih =>
    intro c hc
    rw [natChars] at hc
    by_cases h : n < 10
    · rw [if_pos h] at hc
      rcases List.mem_singleton.mp hc with rfl
      exact (digitChar_spec n h).1
    · rw [if_neg h] at hc
      rcases List.mem_append.mp hc with h1 | h1
      · exact ih (n / 10) (Nat.div_lt_self (by omega) (by omega)) c h1
      · rcases List.mem_singleton.mp h1 with rfl
        exact (digitChar_spec _ (Nat.mod_lt _ (by omega))).1

/-- `natChars` is a nonempty list headed by a digit. -/
theorem natChars_cons (n : Nat) :
    ∃ c t, natChars n = c :: t ∧ isDigitCh c = true := by
  rcases h : natChars n with _ | ⟨c, t⟩
  · exfalso
    rw [natChars] at h
    by_cases h10 : n < 10 <;> simp [h10] at h
  · exact ⟨c, t, rfl, natChars_digits n c (h ▸ List.mem_cons_self c t)⟩

/-- Folding the digits of `n` onto `acc` multiplies `acc` past them. -/
theorem grabDigits_natChars (n : Nat) : ∀ (acc : Nat) (tail : List Char),
    grabDigits acc (natChars n ++ tail)
      = grabDigits (acc * 10 ^ (natChars n).length + n) tail := by
  induction n using Nat.strong_induction_on with
  | _ n ih =>
    intro acc tail
    rw [natChars]
    by_cases h : n < 10
    · rw [if_pos h]
      obtain ⟨hd, ht⟩ := digitChar_spec n h
      simp [grabDigits, hd, ht]
    · rw [if_neg h]
      obtain ⟨hd, ht⟩ := digitChar_spec (n % 10) (Nat.mod_lt _ (by omega))
      have hlen : (natChars n).length = (natChars (n / 10)).length + 1 := by
        rw [natChars, if_neg h, List.length_append]
        rfl
      rw [List.append_assoc, ih (n / 10) (Nat.div_lt_self (by omega) (by omega))]
      simp only [List.cons_append, List.nil_append, grabDigits, hd, ht, if_pos]
      have hmod : 48 + n % 10 - 48 = n % 10 := by omega
      rw [hmod]
      have hlen2 : (natChars (n / 10) ++ [digitChar (n % 10)]).length
          = (natChars (n / 10)).length + 1 := by
        rw [List.length_append]
        rfl
      rw [hlen2, pow_succ]
      have harg : (acc * 10 ^ (natChars (n / 10)).length + n / 10) * 10 + n % 10
          = acc * (10 ^ (natChars (n / 10)).length * 10) + n := by
        have h2 : n / 10 * 10 + n % 10 = n := by omega
        calc (acc * 10 ^ (natChars (n / 10)).length + n / 10) * 10 + n % 10
            = acc * (10 ^ (natChars (n / 10)).length * 10)
                + (n / 10 * 10 + n % 10) := by ring
          _ = acc * (10 ^ (natChars (n / 10)).length * 10) + n := by rw [h2]
      rw [harg]
      rfl

/-- `true` iff a decimal run cannot continue into this remainder. -/
def intStop : List Char → Bool
  | [] => true
  | c :: _ => !isDigitCh c

/-- `grabDigits` stops immediately at a non-digit remainder. -/
theorem grabDigits_stop (acc : Nat) (tail : List Char) (h : intStop tail = true) :
    grabDigits acc tail = (acc, tail) := by
  cases tail with
  | nil => rfl
  | cons c cs =>
      simp only [intStop, Bool.not_eq_true'] at h
      simp [grabDigits, h]

/-- Scanning a rendered natural number from its first digit recovers it. -/
theorem grabDigits_run (n : Nat) (tail : List Char) (h : intStop tail = true)
    (c0 : Char) (t0 : List Char) (h0 : natChars n = c0 :: t0) :
    grabDigits (c0.toNat - 48) (t0 ++ tail) = (n, tail) := by
  have hd := natChars_digits n c0 (h0 ▸ List.mem_cons_self c0 t0)
  have h1 : grabDigits 0 (natChars n ++ tail)
      = grabDigits (0 * 10 ^ (natChars n).length + n) tail := grabDigits_natChars n 0 tail
  rw [grabDigits_stop _ _ h] at h1
  rw [h0] at h1
  simp only [List.cons_append, grabDigits, hd, if_pos] at h1
  simpa using h1

/-! ## Round-trip: the value grammar -/

/-- One-step unfolding of `parseValue` at successor fuel (definitional). -/
theorem parseValue_step (fuel : Nat) (c : Char) (cs : List Char) :
    parseValue (fuel + 1) (c :: cs)
      = (if c = '"' then
          (parseStringBody cs).map (fun q => (Jval.str (String.mk q.1), q.2))
        else if c = '[' then
          match cs with
          | [] => none
          | c1 :: cs1 =>
            if c1 = ']' then some (Jval.arr [], cs1)
            else (parseArrElems fuel (c1 :: cs1)).map (fun q => (Jval.arr q.1, q.2))
        else if c = lbrace then
          match cs with
          | [] => none
          | c1 :: cs1 =>
            if c1 = rbrace then some (Jval.obj [], cs1)
            else (parseObjItems fuel (c1 :: cs1)).map (fun q => (Jval.obj q.1, q.2))
        else if c = 't' then
          match cs with
          | 'r' :: 'u' :: 'e' :: r => some (Jval.bool true, r)
          | _ => none
        else if c = 'f' then
          match cs with
          | 'a' :: 'l' :: 's' :: 'e' :: r => some (Jval.bool false, r)
          | _ => none
        else if c = 'n' then
          match cs with
          | 'u' :: 'l' :: 'l' :: r => some (Jval.null, r)
          | _ => none
        else if c = '-' then
          match cs with
          | [] => none
          | d :: cs1 =>
            if isDigitCh d then
              let q := grabDigits (d.toNat - 48) cs1
              some (Jval.int (-(q.1 : Int)), q.2)
            else none
        else if isDigitCh c then
          let q := grabDigits (c.toNat - 48) cs
          some (Jval.int (q.1 : Int), q.2)
        else none) := rfl

/-- One-step unfolding of `parseArrElems` at successor fuel (definitional). -/
theorem parseArrElems_step (fuel : Nat) (cs : List Char) :
    parseArrElems (fuel + 1) cs
      = (match parseValue fuel cs with
         | none => none
         | some (v, r) =>
           match r with
           | ',' :: r1 => (parseArrElems fuel r1).map (fun q => (v :: q.1, q.2))
           | ']' :: r1 => some ([v], r1)
           | _ => none) := rfl

/-- One-step unfolding of `parseObjItems` at successor fuel (definitional). -/
theorem parseObjItems_step (fuel : Nat) (cs : List Char) :
    parseObjItems (fuel + 1) cs
      = (match cs with
         | [] => none
         | q0 :: cs0 =>
           if q0 = '"' then
             match parseStringBody cs0 with
             | none => none
             | some (k, r1) =>
               match r1 with
               | ':' :: r2 =>
                 match parseValue fuel r2 with
                 | none => none
                 | some (v, r3) =>
                   match r3 with
                   | ',' :: r4 =>
                       (parseObjItems fuel r4).map
                         (fun q => ((String.mk k, v) :: q.1, q.2))
                   | d :: r4 =>
                       if d = rbrace then some ([(String.mk k, v)], r4) else none
                   | [] => none
               | _ => none
           else none) := rfl

/-- A digit character is none of the parser's dispatch or closing characters. -/
theorem digit_head_facts (c : Char) (h : isDigitCh c = true) :
    c ≠ '"' ∧ c ≠ '[' ∧ c ≠ lbrace ∧ c ≠ 't' ∧ c ≠ 'f' ∧ c ≠ 'n' ∧ c ≠ '-'
      ∧ c ≠ ']' ∧ c ≠ rbrace ∧ c ≠ ',' :=
  ⟨fun hc => by subst hc; exact absurd h (by decide),
   fun hc => by subst hc; exact absurd h (by decide),
   fun hc => by subst hc; exact absurd h (by decide),
   fun hc => by subst hc; exact absurd h (by decide),
   fun hc => by subst hc; exact absurd h (by decide),
   fun hc => by subst hc; exact absurd h (by decide),
   fun hc => by subst hc; exact absurd h (by decide),
   fun hc => by subst hc; exact absurd h (by decide),
   fun hc => by subst hc; exact absurd h (by decide),
   fun hc => by subst hc; exact absurd h (by decide)⟩

/-- Every encoded value starts with a character that closes nothing. -/
theorem encVal_head (j : Jval) :
    ∃ c t, encVal j = c :: t ∧ c ≠ ']' ∧ c ≠ rbrace := by
  cases j with
  | str s =>
      exact ⟨'"', s.data.flatMap escapeChar ++ ['"'],
        by simp [encVal, encString], by decide, by decide⟩
  | int n =>
      by_cases hn : n < 0
      · exact ⟨'-', natChars n.natAbs, by simp [encVal, intChars, hn],
          by decide, by decide⟩
      · obtain ⟨c0, t0, h0, hd0⟩ := natChars_cons n.natAbs
        obtain ⟨_, _, _, _, _, _, _, h8, h9, _⟩ := digit_head_facts c0 hd0
        exact ⟨c0, t0, by simp [encVal, intChars, hn, h0], h8, h9⟩
  | bool b =>
      cases b with
      | true => exact ⟨'t', ['r', 'u', 'e'], by simp [encVal], by decide, by decide⟩
      | false => exact ⟨'f', ['a', 'l', 's', 'e'], by simp [encVal], by decide, by decide⟩
  | null => exact ⟨'n', ['u', 'l', 'l'], by simp [encVal], by decide, by decide⟩
  | arr xs =>
      cases xs with
      | nil => exact ⟨'[', [']'], by simp [encVal], by decide, by decide⟩
      | cons x xs =>
          exact ⟨'[', encItems x xs ++ [']'], by simp [encVal], by decide, by decide⟩
  | obj kvs =>
      cases kvs with
      | nil => exact ⟨lbrace, [rbrace], by simp [encVal], by decide, by decide⟩
      | cons kv kvs =>
          exact ⟨lbrace, encPairs kv kvs ++ [rbrace],
            by simp [encVal], by decide, by decide⟩

/-- Encoded array items start with their first value's first character. -/
theorem encItems_head (x : Jval) (xs : List Jval) :
    ∃ c t, encItems x xs = c :: t ∧ c ≠ ']' ∧ c ≠ rbrace := by
  obtain ⟨c, t, hx, h1, h2⟩ := encVal_head x
  cases xs with
  | nil => exact ⟨c, t, by simp [encItems, hx], h1, h2⟩
  | cons y ys => exact ⟨c, t ++ ',' :: encItems y ys, by simp [encItems, hx], h1, h2⟩

/-- A remainder headed by a non-digit cannot extend a decimal run. -/
theorem intStop_cons (c : Char) (t : List Char) (h : isDigitCh c = false) :
    intStop (c :: t) = true := by
  simp [intStop, h]

mutual

/-- Parsing a rendered value (followed by a non-digit remainder) recovers it,
for any fuel beyond the rendered length. -/
theorem rt_val : ∀ (j : Jval) (fuel : Nat) (rest : List Char),
    (encVal j).length < fuel → intStop rest = true →
    parseValue fuel (encVal j ++ rest) = some (j, rest)
  | .str s, fuel, rest, hf, _ => by
      cases fuel with
      | zero => exact absurd hf (Nat.not_lt_zero _)
      | succ f =>
          have he : encVal (Jval.str s) ++ rest
              = '"' :: (s.data.flatMap escapeChar ++ '"' :: rest) := by
            simp [encVal, encString]
          rw [he, parseValue_step, if_pos rfl, parseStringBody_flatMap]
          rfl
  | .int n, fuel, rest, hf, hstop => by
      cases fuel with
      | zero => exact absurd hf (Nat.not_lt_zero _)
      | succ f =>
          obtain ⟨c0, t0, h0, hd0⟩ := natChars_cons n.natAbs
          have hg := grabDigits_run n.natAbs rest hstop c0 t0 h0
          by_cases hn : n < 0
          · have he : encVal (Jval.int n) ++ rest
                = '-' :: (natChars n.natAbs ++ rest) := by
              simp [encVal, intChars, hn]
            rw [he, parseValue_step]
            rw [if_neg (by decide), if_neg (by decide), if_neg (by decide),
                if_neg (by decide), if_neg (by decide), if_neg (by decide),
                if_pos rfl]
            rw [h0, List.cons_append]
            show (if isDigitCh c0 then
                let q := grabDigits (c0.toNat - 48) (t0 ++ rest)
                some (Jval.int (-(q.1 : Int)), q.2)
              else none) = some (Jval.int n, rest)
            rw [if_pos hd0]
            simp only [hg]
            have hval : -((n.natAbs : Int)) = n := by omega
            rw [hval]
          · obtain ⟨hq, hbk, hbr, ht', hfc, hnc, hmn, _, _, _⟩ :=
              digit_head_facts c0 hd0
            have he : encVal (Jval.int n) ++ rest = c0 :: (t0 ++ rest) := by
              simp [encVal, intChars, hn, h0]
            rw [he, parseValue_step]
            rw [if_neg hq, if_neg hbk, if_neg hbr, if_neg ht', if_neg hfc,
                if_neg hnc, if_neg hmn, if_pos hd0]
            simp only [hg]
            have hval : ((n.natAbs : Int)) = n := by omega
            rw [hval]
  | .bool true, fuel, rest, hf, _ => by
      cases fuel with
      | zero => exact absurd hf (Nat.not_lt_zero _)
      | succ f =>
          have he : encVal (Jval.bool true) ++ rest
              = 't' :: ('r' :: 'u' :: 'e' :: rest) := by simp [encVal]
          rw [he, parseValue_step]
          rw [if_neg (by decide), if_neg (by decide), if_neg (by decide),
              if_pos rfl]
          rfl
  | .bool false, fuel, rest, hf, _ => by
      cases fuel with
      | zero => exact absurd hf (Nat.not_lt_zero _)
      | succ f =>
          have he : encVal (Jval.bool false) ++ rest
              = 'f' :: ('a' :: 'l' :: 's' :: 'e' :: rest) := by simp [encVal]
          rw [he, parseValue_step]
          rw [if_neg (by decide), if_neg (by decide), if_neg (by decide),
              if_neg (by decide), if_pos rfl]
          rfl
  | .null, fuel, rest, hf, _ => by
      cases fuel with
      | zero => exact absurd hf (Nat.not_lt_zero _)
      | succ f =>
          have he : encVal Jval.null ++ rest
              = 'n' :: ('u' :: 'l' :: 'l' :: rest) := by simp [encVal]
          rw [he, parseValue_step]
          rw [if_neg (by decide), if_neg (by decide), if_neg (by decide),
              if_neg (by decide), if_neg (by decide), if_pos rfl]
          rfl
  | .arr [], fuel, rest, hf, _ => by
      cases fuel with
      | zero => exact absurd hf (Nat.not_lt_zero _)
      | succ f =>
          have he : encVal (Jval.arr []) ++ rest = '[' :: (']' :: rest) := by
            simp [encVal]
          rw [he, parseValue_step]
          rw [if_neg (by decide), if_pos rfl]
          show (if ']' = ']' then some (Jval.arr [], rest)
            else (parseArrElems f (']' :: rest)).map
              (fun q => (Jval.arr q.1, q.2))) = some (Jval.arr [], rest)
          rw [if_pos rfl]
  | .arr (x :: xs), fuel, rest, hf, _ => by
      cases fuel with
      | zero => exact absurd hf (Nat.not_lt_zero _)
      | succ f =>
          obtain ⟨c1, t1, hh, hne1, _⟩ := encItems_head x xs
          have he : encVal (Jval.arr (x :: xs)) ++ rest
              = '[' :: (encItems x xs ++ ']' :: rest) := by
            simp [encVal]
          rw [he, parseValue_step, if_neg (by decide), if_pos rfl]
          have hlen : (encItems x xs).length + 1 < f := by
            have h2 : (encVal (Jval.arr (x :: xs))).length
                = (encItems x xs).length + 2 := by
              simp [encVal]
            omega
          have hres := rt_items x xs f rest hlen
          rw [hh, List.cons_append]
          show (if c1 = ']' then some (Jval.arr [], t1 ++ ']' :: rest)
            else (parseArrElems f (c1 :: (t1 ++ ']' :: rest))).map
              (fun q => (Jval.arr q.1, q.2))) = some (Jval.arr (x :: xs), rest)
          rw [if_neg hne1]
          rw [hh, List.cons_append] at hres
          rw [hres]
          rfl
  | .obj [], fuel, rest, hf, _ => by
      cases fuel with
      | zero => exact absurd hf (Nat.not_lt_zero _)
      | succ f =>
          have he : encVal (Jval.obj []) ++ rest = lbrace :: (rbrace :: rest) := by
            simp [encVal]
          rw [he, parseValue_step]
          rw [if_neg (by decide), if_neg (by decide), if_pos rfl]
          show (if rbrace = rbrace then some (Jval.obj [], rest)
            else (parseObjItems f (rbrace :: rest)).map
              (fun q => (Jval.obj q.1, q.2))) = some (Jval.obj [], rest)
          rw [if_pos rfl]
  | .obj (kv :: kvs), fuel, rest, hf, _ => by
      cases fuel with
      | zero => exact absurd hf (Nat.not_lt_zero _)
      | succ f =>
          obtain ⟨c, t, hx, _, h2⟩ := encVal_head kv.2
          have hh : ∃ c1 t1, encPairs kv kvs = c1 :: t1 ∧ c1 ≠ rbrace := by
            rcases kv with ⟨k, v⟩
            cases kvs with
            | nil =>
                exact ⟨'"', k.data.flatMap escapeChar ++ '"' :: (':' :: encVal v),
                  by simp [encPairs, encString], by decide⟩
            | cons kv2 kvs2 =>
                exact ⟨'"', k.data.flatMap escapeChar
                    ++ '"' :: (':' :: (encVal v ++ ',' :: encPairs kv2 kvs2)),
                  by simp [encPairs, encString], by decide⟩
          obtain ⟨c1, t1, hp, hne1⟩ := hh
          have he : encVal (Jval.obj (kv :: kvs)) ++ rest
              = lbrace :: (encPairs kv kvs ++ rbrace :: rest) := by
            simp [encVal]
          rw [he, parseValue_step, if_neg (by decide), if_neg (by decide),
              if_pos rfl]
          have hlen : (encPairs kv kvs).length + 1 < f := by
            have h2 : (encVal (Jval.obj (kv :: kvs))).length
                = (encPairs kv kvs).length + 2 := by
              simp [encVal]
            omega
          have hres := rt_pairs kv kvs f rest hlen
          rw [hp, List.cons_append]
          show (if c1 = rbrace then some (Jval.obj [], t1 ++ rbrace :: rest)
            else (parseObjItems f (c1 :: (t1 ++ rbrace :: rest))).map
              (fun q => (Jval.obj q.1, q.2))) = some (Jval.obj (kv :: kvs), rest)
          rw [if_neg hne1]
          rw [hp, List.cons_append] at hres
          rw [hres]
          rfl
termination_by j _ _ _ _ => sizeOf j
decreasing_by all_goals (simp_wf; try omega)

/-- Parsing rendered array items up to the closing bracket recovers them. -/
theorem rt_items : ∀ (x : Jval) (xs : List Jval) (fuel : Nat) (rest : List Char),
    (encItems x xs).length + 1 < fuel →
    parseArrElems fuel (encItems x xs ++ ']' :: rest) = some (x :: xs, rest)
  | x, [], fuel, rest, hf => by
      cases fuel with
      | zero => exact absurd hf (Nat.not_lt_zero _)
      | succ f =>
          have hx : encItems x [] = encVal x := by simp [encItems]
          have hlen : (encVal x).length < f := by rw [hx] at hf; omega
          have hv := rt_val x f (']' :: rest) hlen
            (intStop_cons _ _ (by decide))
          rw [hx, parseArrElems_step, hv]
          rfl
  | x, y :: ys, fuel, rest, hf => by
      cases fuel with
      | zero => exact absurd hf (Nat.not_lt_zero _)
      | succ f =>
          have hx : encItems x (y :: ys) = encVal x ++ ',' :: encItems y ys := by
            simp [encItems]
          have hlf : (encItems x (y :: ys)).length
              = (encVal x).length + (encItems y ys).length + 1 := by
            rw [hx]
            simp [List.length_append]
            omega
          have h1 : (encVal x).length < f := by omega
          have h2 : (encItems y ys).length + 1 < f := by omega
          have hv := rt_val x f (',' :: (encItems y ys ++ ']' :: rest)) h1
            (intStop_cons _ _ (by decide))
          have hrec := rt_items y ys f rest h2
          have harr : encItems x (y :: ys) ++ ']' :: rest
              = encVal x ++ ',' :: (encItems y ys ++ ']' :: rest) := by
            rw [hx]
            simp [List.append_assoc]
          rw [harr, parseArrElems_step, hv]
          show (parseArrElems f (encItems y ys ++ ']' :: rest)).map
              (fun q => (x :: q.1, q.2)) = some (x :: y :: ys, rest)
          rw [hrec]
          rfl
termination_by x xs _ _ _ => sizeOf x + sizeOf xs
decreasing_by all_goals (simp_wf; try omega)

/-- Parsing rendered object members up to the closing brace recovers them. -/
theorem rt_pairs : ∀ (kv : String × Jval) (kvs : List (String × Jval))
    (fuel : Nat) (rest : List Char),
    (encPairs kv kvs).length + 1 < fuel →
    parseObjItems fuel (encPairs kv kvs ++ rbrace :: rest) = some (kv :: kvs, rest)
  | (k, v), [], fuel, rest, hf => by
      cases fuel with
      | zero => exact absurd hf (Nat.not_lt_zero _)
      | succ f =>
          have hx : encPairs (k, v) [] = encString k.data ++ ':' :: encVal v := by
            simp [encPairs]
          have hlen : (encVal v).length < f := by
            rw [hx] at hf
            simp [List.length_append] at hf
            omega
          have hv := rt_val v f (rbrace :: rest) hlen
            (intStop_cons _ _ (by decide))
          have he : encPairs (k, v) [] ++ rbrace :: rest
              = '"' :: (k.data.flatMap escapeChar
                  ++ '"' :: (':' :: (encVal v ++ rbrace :: rest))) := by
            rw [hx]
            simp [encString, List.append_assoc]
          rw [he, parseObjItems_step]
          show (if ('"' : Char) = '"' then
              match parseStringBody (k.data.flatMap escapeChar
                  ++ '"' :: (':' :: (encVal v ++ rbrace :: rest))) with
              | none => none
              | some (key, r1) =>
                match r1 with
                | ':' :: r2 =>
                  match parseValue f r2 with
                  | none => none
                  | some (w, r3) =>
                    match r3 with
                    | ',' :: r4 =>
                        (parseObjItems f r4).map
                          (fun q => ((String.mk key, w) :: q.1, q.2))
                    | d :: r4 =>
                        if d = rbrace then some ([(String.mk key, w)], r4) else none
                    | [] => none
                | _ => none
              else none) = some ((k, v) :: [], rest)
          rw [if_pos rfl, parseStringBody_flatMap]
          show (match parseValue f (encVal v ++ rbrace :: rest) with
                | none => none
                | some (w, r3) =>
                  match r3 with
                  | ',' :: r4 =>
                      (parseObjItems f r4).map
                        (fun q => ((String.mk k.data, w) :: q.1, q.2))
                  | d :: r4 =>
                      if d = rbrace then some ([(String.mk k.data, w)], r4)
                      else none
                  | [] => none) = some ((k, v) :: [], rest)
          rw [hv]
          rfl
  | (k, v), kv2 :: kvs2, fuel, rest, hf => by
      cases fuel with
      | zero => exact absurd hf (Nat.not_lt_zero _)
      | succ f =>
          have hx : encPairs (k, v) (kv2 :: kvs2)
              = encString k.data ++ ':' :: encVal v ++ ',' :: encPairs kv2 kvs2 := by
            simp [encPairs]
          have hlf : (encPairs (k, v) (kv2 :: kvs2)).length
              = (encString k.data).length + (encVal v).length
                + (encPairs kv2 kvs2).length + 2 := by
            rw [hx]
            simp [List.length_append]
            omega
          have h1 : (encVal v).length < f := by omega
          have h2 : (encPairs kv2 kvs2).length + 1 < f := by omega
          have hv := rt_val v f (',' :: (encPairs kv2 kvs2 ++ rbrace :: rest)) h1
            (intStop_cons _ _ (by decide))
          have hrec := rt_pairs kv2 kvs2 f rest h2
          have he : encPairs (k, v) (kv2 :: kvs2) ++ rbrace :: rest
              = '"' :: (k.data.flatMap escapeChar
                  ++ '"' :: (':' :: (encVal v
                      ++ ',' :: (encPairs kv2 kvs2 ++ rbrace :: rest)))) := by
            rw [hx]
            simp [encString, List.append_assoc]
          rw [he, parseObjItems_step]
          show (if ('"' : Char) = '"' then
              match parseStringBody (k.data.flatMap escapeChar
                  ++ '"' :: (':' :: (encVal v
                      ++ ',' :: (encPairs kv2 kvs2 ++ rbrace :: rest)))) with
              | none => none
              | some (key, r1) =>
                match r1 with
                | ':' :: r2 =>
                  match parseValue f r2 with
                  | none => none
                  | some (w, r3) =>
                    match r3 with
                    | ',' :: r4 =>
                        (parseObjItems f r4).map
                          (fun q => ((String.mk key, w) :: q.1, q.2))
                    | d :: r4 =>
                        if d = rbrace then some ([(String.mk key, w)], r4) else none
                    | [] => none
                | _ => none
              else none) = some ((k, v) :: kv2 :: kvs2, rest)
          rw [if_pos rfl, parseStringBody_flatMap]
          show (match parseValue f (encVal v
                    ++ ',' :: (encPairs kv2 kvs2 ++ rbrace :: rest)) with
                | none => none
                | some (w, r3) =>
                  match r3 with
                  | ',' :: r4 =>
                      (parseObjItems f r4).map
                        (fun q => ((String.mk k.data, w) :: q.1, q.2))
                  | d :: r4 =>
                      if d = rbrace then some ([(String.mk k.data, w)], r4)
                      else none
                  | [] => none) = some ((k, v) :: kv2 :: kvs2, rest)
          rw [hv]
          show (parseObjItems f (encPairs kv2 kvs2 ++ rbrace :: rest)).map
              (fun q => ((String.mk k.data, v) :: q.1, q.2))
            = some ((k, v) :: kv2 :: kvs2, rest)
          rw [hrec]
          rfl
termination_by kv kvs _ _ _ => sizeOf kv + sizeOf kvs
decreasing_by all_goals (simp_wf; try omega)

end

/-- Decoding an encoded value recovers it exactly. -/
theorem decode_encVal (j : Jval) : decode (encVal j) = some j := by
  have h := rt_val j ((encVal j).length + 1) [] (by omega) rfl
  rw [List.append_nil] at h
  unfold decode
  rw [h]

/-- The `response_started` flag equals "some forwarded message was an
`http.response.start`". -/
theorem sendLoop_any (ms : List Message) : ∀ (b : Bool),
    sendLoop b ms = (b || ms.any (fun m => m.mtype == "http.response.start")) := by
  induction ms with
  | nil => intro b; simp [sendLoop]
  | cons m ms ih => intro b; simp [sendLoop, ih, Bool.or_assoc]

/-- `ProblemException.__init__` never stores a falsy status. -/
theorem init_status_ne_zero (_type title : String) (status : Int)
    (detail inst : String) (errors : List Jval) (p : ProblemException)
    (h : ProblemException.init _type title status detail inst errors = .ok p) :
    p.status ≠ 0 := by
  unfold ProblemException.init at h
  dsimp only at h
  have hsnz : (if status = 0 then (500 : Int) else status) ≠ 0 := by
    by_cases h0 : status = 0 <;> simp [h0]
  split at h
  · rcases hph : httpStatusPhrase (if status = 0 then (500 : Int) else status) with
      _ | ph
    · rw [hph] at h
      cases h
    · rw [hph] at h
      cases h
      exact hsnz
  · cases h
    exact hsnz

/-! ## The claims -/

/-- C1: for every HTTP-scope request whose wrapped app raises: if no
`http.response.start` message has been sent, the middleware sends exactly one
problem response (one start message) after the app's messages and re-raises
the original fault; if transmission began, it sends nothing more and only
re-raises the original fault; non-HTTP scopes pass through untouched. -/
theorem C1_middleware_fault_protocol :
    (∀ (scopeType : String) (app : AppRun) (handler : String → List Message),
        scopeType ≠ "http" →
        middlewareCall scopeType app handler = (app.toSend, app.fault))
    ∧ (∀ (app : AppRun) (exc : String) (p : ProblemException),
        app.fault = some exc →
        app.toSend.any (fun m => m.mtype == "http.response.start") = false →
        middlewareCall "http" app (fun _ => problemResponseSend p)
          = (app.toSend ++ problemResponseSend p, some exc)
        ∧ countStarts (problemResponseSend p) = 1)
    ∧ (∀ (app : AppRun) (exc : String) (handler : String → List Message),
        app.fault = some exc →
        app.toSend.any (fun m => m.mtype == "http.response.start") = true →
        middlewareCall "http" app handler = (app.toSend, some exc)) := by
  refine ⟨?_, ?_, ?_⟩
  · intro scopeType app handler hne
    simp [middlewareCall, bne_iff_ne, hne]
  · intro app exc p hf hns
    constructor
    · have hsl : sendLoop false app.toSend = false := by
        rw [sendLoop_any, hns]
        rfl
      simp [middlewareCall, hf, hsl]
    · rfl
  · intro app exc handler hf hs
    have hsl : sendLoop false app.toSend = true := by
      rw [sendLoop_any, hs]
      rfl
    simp [middlewareCall, hf, hsl]

/-- Witness for C1 at concrete runs: a websocket scope passes through, a
faulting app with no response started gets exactly one appended problem
response, and a faulting app mid-response gets nothing appended. -/
theorem C1_witness :
    middlewareCall "websocket" ⟨[⟨"websocket.send", "x"⟩], some "boom"⟩
        (fun _ => []) = ([⟨"websocket.send", "x"⟩], some "boom")
    ∧ (middlewareCall "http" ⟨[], some "boom"⟩
          (fun _ => problemResponseSend ⟨"exception:problem", "OK", 200, "", "", []⟩)
        = ([] ++ problemResponseSend ⟨"exception:problem", "OK", 200, "", "", []⟩,
            some "boom")
      ∧ countStarts (problemResponseSend ⟨"exception:problem", "OK", 200, "", "", []⟩)
          = 1)
    ∧ middlewareCall "http" ⟨[⟨"http.response.start", "200"⟩], some "boom"⟩
        (fun _ => [⟨"http.response.start", "500"⟩])
        = ([⟨"http.response.start", "200"⟩], some "boom") :=
  ⟨C1_middleware_fault_protocol.1 "websocket" _ _ (by decide),
   C1_middleware_fault_protocol.2.1 _ "boom" _ rfl rfl,
   C1_middleware_fault_protocol.2.2 _ "boom" _ rfl rfl⟩

/-- C2 (code bug): classification is NOT fault-free.  A generic mapping with
an unrecognized key makes `ProblemException(**data)` raise `TypeError`, and a
mapping with a status outside the standard table (and no title) makes the
`http.HTTPStatus` title lookup raise `ValueError`; both escape `render`. -/
theorem C2_classifier_can_raise :
    render (Content.dict [("detail", Jval.str "x"), ("code", Jval.int 7)]) "/p"
      = .error .typeError
    ∧ render (Content.dict [("status", Jval.int 599)]) "/q"
      = .error .valueError :=
  ⟨rfl, rfl⟩

/-- C3: the domain-fault mapping: validation-failure to 400, not-found to
404, conflict to 409, anything else to 500, with `detail` the fault's string
message and `instance` the supplied instance identifier. -/
theorem C3_domain_exception_mapping (msg inst name : String) :
    from_domain_exception (DomainExc.validationFailureError msg) inst
      = .ok ⟨"exception:problem", "Bad Request", 400, msg, inst, []⟩
    ∧ from_domain_exception (DomainExc.notFoundError msg) inst
      = .ok ⟨"exception:problem", "Not Found", 404, msg, inst, []⟩
    ∧ from_domain_exception (DomainExc.conflictValueError msg) inst
      = .ok ⟨"exception:problem", "Conflict", 409, msg, inst, []⟩
    ∧ from_domain_exception (DomainExc.otherError name msg) inst
      = .ok ⟨"exception:problem", "Internal Server Error", 500, msg, inst, []⟩ :=
  ⟨rfl, rfl, rfl, rfl⟩

/-- C4 counterexample: for an uncaught fault whose string message is empty,
the single errors entry does NOT contain the `exception_message` key (the log
record serializer drops falsy values), so the entry does not contain the
fault's string message as the claim states. -/
theorem C4_counterexample :
    (render (Content.exc "ValueError" "" "tb") "/widgets/1").map
        (fun p => p.errors.map (fun e =>
          match e with
          | Jval.obj kvs => kvs.lookup "exception_message"
          | _ => none))
      = Except.ok [none] := rfl

/-- C4 as amended: an uncaught fault renders `type="exception:uncaught"`,
status 500, title "Internal Server Error", the fixed detail, `instance` the
request path, and errors a single entry carrying, among
`exception_type`/`exception_message`/`exception_stack_trace`, exactly the
non-empty values of the fault's class name, message, and stack trace. -/
theorem C4_uncaught_problem (className message stacktrace path : String) :
    render (Content.exc className message stacktrace) path
      = .ok ⟨"exception:uncaught", "Internal Server Error", 500,
          "Uncaught exception occurred while processing the request.", path,
          [Jval.obj ((if className = "" then []
              else [("exception_type", Jval.str className)])
            ++ (if message = "" then []
              else [("exception_message", Jval.str message)])
            ++ (if stacktrace = "" then []
              else [("exception_stack_trace", Jval.str stacktrace)]))]⟩ := rfl

/-- C5 counterexample: a request-validation fault with zero field violations
renders a body with NO `errors` member at all (the serializer omits the empty
list), not an errors array with exactly zero entries. -/
theorem C5_counterexample :
    (render (Content.validation []) "/p").map
        (fun p => (p.to_dict.lookup "errors", p.errors))
      = Except.ok (none, []) := rfl

/-- C5 as amended: a request-validation fault with a nonempty sequence of N
violations produces `type="exception:validation"`, title "Validation Error",
status 422, the fixed detail, `instance` the request path, and the rendered
errors array has exactly the N violation entries verbatim; with zero
violations the errors member is omitted from the rendered body. -/
theorem C5_validation_problem (errs : List Jval) (path : String)
    (h : errs ≠ []) :
    render (Content.validation errs) path
      = .ok ⟨"exception:validation", "Validation Error", 422,
          "One or more user-provided parameters are invalid, please see errors for details.",
          path, errs⟩
    ∧ (ProblemException.to_dict ⟨"exception:validation", "Validation Error", 422,
          "One or more user-provided parameters are invalid, please see errors for details.",
          path, errs⟩).lookup "errors" = some (Jval.arr errs) := by
  constructor
  · rfl
  · have hne : errs.isEmpty = false := by
      cases errs with
      | nil => exact absurd rfl h
      | cons e es => rfl
    by_cases hp : path = "" <;>
      simp [ProblemException.to_dict, hp, hne, List.lookup]

/-- Witness for C5 at one concrete violation entry. -/
theorem C5_witness :
    render (Content.validation [Jval.obj [("loc", Jval.arr [Jval.str "body"])]])
        "/items"
      = .ok ⟨"exception:validation", "Validation Error", 422,
          "One or more user-provided parameters are invalid, please see errors for details.",
          "/items", [Jval.obj [("loc", Jval.arr [Jval.str "body"])]]⟩
    ∧ (ProblemException.to_dict ⟨"exception:validation", "Validation Error", 422,
          "One or more user-provided parameters are invalid, please see errors for details.",
          "/items", [Jval.obj [("loc", Jval.arr [Jval.str "body"])]]⟩).lookup
        "errors"
      = some (Jval.arr [Jval.obj [("loc", Jval.arr [Jval.str "body"])]]) :=
  C5_validation_problem [Jval.obj [("loc", Jval.arr [Jval.str "body"])]] "/items"
    (List.cons_ne_nil _ _)

/-- C6: the rendered mapping holds exactly the non-empty fields plus
`status` (always present for any record with the constructor's nonzero-status
invariant, see `init_status_ne_zero`); a record with every other field empty
renders to just the status member. -/
theorem C6_to_dict_keys (p : ProblemException) (h : p.status ≠ 0) :
    p.to_dict.map Prod.fst
      = (if p.type = "" then [] else ["type"])
        ++ (if p.title = "" then [] else ["title"])
        ++ ["status"]
        ++ (if p.detail = "" then [] else ["detail"])
        ++ (if p.inst = "" then [] else ["instance"])
        ++ (if p.errors.isEmpty then [] else ["errors"])
    ∧ ProblemException.to_dict ⟨"", "", p.status, "", "", []⟩
      = [("status", Jval.int p.status)] := by
  constructor
  · simp only [ProblemException.to_dict, if_neg h]
    split_ifs <;> simp
  · simp [ProblemException.to_dict, h]

/-- Witness for C6 at an all-empty record with status 404. -/
theorem C6_witness :
    (ProblemException.to_dict ⟨"", "", 404, "", "", []⟩).map Prod.fst
      = ["status"]
    ∧ ProblemException.to_dict ⟨"", "", 404, "", "", []⟩
      = [("status", Jval.int 404)] := by
  have h := C6_to_dict_keys ⟨"", "", 404, "", "", []⟩ (by decide)
  exact ⟨by simpa using h.1, h.2⟩

/-- C7: JSON-decoding the byte payload `to_bytes` produces yields exactly the
mapping `to_dict` (which holds the record's non-empty field values): the
encoding round-trips. -/
theorem C7_to_bytes_roundtrip (p : ProblemException) :
    decode p.to_bytes = some (Jval.obj p.to_dict) :=
  decode_encVal (Jval.obj p.to_dict)

/-- C8 counterexample: a `ProblemException` with an absent `instance` passes
through `render` with `instance` still absent — it is NOT filled with the
request path. -/
theorem C8_counterexample :
    (render (Content.problem ⟨"exception:problem", "Internal Server Error", 500,
        "boom", "", []⟩) "/widgets/1").map (fun q => q.inst) = .ok ""
    ∧ ("" : String) ≠ "/widgets/1" :=
  ⟨rfl, by decide⟩

/-- C8 as amended: an already-`ProblemException` fault passes through
classification with every field unchanged; in particular `instance` is left
as-is even when absent (only the generic-mapping branch fills it). -/
theorem C8_problem_passthrough (p : ProblemException) (path : String) :
    render (Content.problem p) path = .ok p := rfl

/-- C9 (code bug): a generic mapping carrying an unrecognized key is not
accepted leniently: `ProblemException(**data)` raises
`TypeError: unexpected keyword argument` instead of preserving the key, which
contradicts the `as_dict` docstring and the spec. -/
theorem C9_as_dict_unknown_key_raises :
    as_dict [("title", Jval.str "oops"), ("foo", Jval.str "bar")] "/p"
      = .error .typeError := rfl

/-- C10 (code bug): `exec_hooks` has no `try`/`except`, so a raising hook
aborts the handler and its exception propagates out of `exception_handler`
(contradicting the docstring "If the hook raises an exception, the exception
is ignored" and the spec's swallowing guarantee); hooks do run in
registration order, pre-hooks before classification, post-hooks after. -/
theorem C10_hook_fault_propagates :
    exception_handler [⟨"metrics", false⟩, ⟨"audit", true⟩] []
        (Content.exc "ValueError" "boom" "tb") "/p"
      = (["metrics", "audit"], .error (.raisedHook "audit"))
    ∧ exception_handler [⟨"a", false⟩, ⟨"b", false⟩] [⟨"c", false⟩]
        (Content.exc "E" "m" "t") "/p"
      = (["a", "b", "c"], render (Content.exc "E" "m" "t") "/p") :=
  ⟨rfl, rfl⟩
